import Mathlib

/-!
Shallow embedding of the glean telemetry core behind the FFI shim in
`src/glean-core/ffi/src/lib.rs`.

The repository's visible source is only the FFI boundary; the `glean_core`
crate it calls (the `Glean` singleton, the metric types and `PingMaker`)
is not under `src/`.  Following the specification, definitions for that
missing core are modelled from the spec's words and carry a doc comment
starting with `Modelled from the spec:`.  Definitions for the FFI layer
itself are translated from `src/glean-core/ffi/src/lib.rs` directly.

Rust `u64` amounts are modelled as `Nat` with an explicit saturation bound
`counterMax = 2 ^ 64 - 1`; the global singleton is modelled by explicit
state passing over `GleanState`; fallible operations return
`Except ErrorKind`.
-/

namespace GleanSpec

/-- Modelled from the spec: the error taxonomy of §7 (ERROR HANDLING DESIGN).
`glean_core` is not under `src/`; the kinds are those the spec names. -/
inductive ErrorKind where
  | invalidMetricIdentity
  | notInitialized
  | unknownPing
  | storageUnavailable
  | valueOutOfRange
deriving DecidableEq, Repr

/-- Modelled from the spec: a Metric Value is "a tagged variant over
{Boolean, String, Counter}, each variant carrying its natural value type
(bool, text, unsigned accumulator)" (§3). -/
inductive MetricValue where
  | boolean (b : Bool)
  | text (t : String)
  | counter (c : Nat)
deriving DecidableEq, Repr

/-- The counter accumulator's capacity bound.  The FFI passes the amount as a
`u64` (`glean_counter_add(metric_id: u64, amount: u64, ...)`), so the
accumulator capacity is modelled as the `u64` bound; the spec leaves the
exact constant as an implementer's choice and asks that it be documented. -/
def counterMax : Nat := 2 ^ 64 - 1

/-- Modelled from the spec: the clamping length for string metric values is an
implementer-chosen documented constant (§4.1, §9); this model fixes it at 50
characters. -/
def maxStringLength : Nat := 50

/-- `CommonMetricData` as used by the FFI constructors: `category` and `name`
are the two-part identity, `send_in_pings` the ping names the metric feeds,
`disabled` an optional flag (§3). -/
structure CommonMetricData where
  name : String
  category : String
  sendInPings : List String
  disabled : Bool
deriving DecidableEq, Repr

/-- A Storage Record: a mapping entry from (ping name, category, metric name)
to the current Metric Value (§3). -/
structure StorageRecord where
  ping : String
  category : String
  name : String
  value : MetricValue
deriving DecidableEq, Repr

/-- Whether a record carries the given (ping, category, name) key. -/
def keyMatches (ping category name : String) (r : StorageRecord) : Bool :=
  r.ping == ping && r.category == category && r.name == name

/-- Modelled from the spec: Storage Engine `write(ping_name, category,
metric_name, value)` upserts (§4.2).  `update` receives the previous value
when the key is present (overwrite for boolean/string, add for counter). -/
def storageWrite (ping category name : String)
    (update : Option MetricValue → MetricValue) :
    List StorageRecord → List StorageRecord
  | [] => [⟨ping, category, name, update none⟩]
  | r :: rest =>
    if keyMatches ping category name r then
      ⟨ping, category, name, update (some r.value)⟩ :: rest
    else
      r :: storageWrite ping category name update rest

/-- Modelled from the spec: `snapshot(ping_name)` returns the mapping of
(category, metric name) to value of every record tagged with the ping (§4.2). -/
def snapshot (ping : String) (st : List StorageRecord) :
    List (String × String × MetricValue) :=
  (st.filter fun r => r.ping == ping).map fun r => (r.category, r.name, r.value)

/-- Modelled from the spec: `clear(ping_name)` removes all records tagged with
that ping name (§4.2). -/
def storageClear (ping : String) (st : List StorageRecord) : List StorageRecord :=
  st.filter fun r => r.ping != ping

/-- The unsigned accumulator held by a stored value, reading an absent record
as 0.  A non-counter variant at a counter's key is a programming error per the
spec (§3); the model reads it as 0. -/
def counterValue : Option MetricValue → Nat
  | some (MetricValue.counter c) => c
  | _ => 0

/-- The accumulator currently stored at a key (0 when absent). -/
def lookupCounter (ping category name : String) (st : List StorageRecord) : Nat :=
  counterValue ((st.find? (keyMatches ping category name)).map StorageRecord.value)

/-- Modelled from the spec: identity characters allowed in a category or
metric name — the spec only says creation "fails if category/name are empty or
contain disallowed characters" (§4.1); this model allows alphanumerics and
underscore. -/
def allowedIdentChar (c : Char) : Bool :=
  c.isAlphanum || c == '_'

/-- Modelled from the spec: a valid metric identity component is non-empty and
made of allowed characters (§4.1). -/
def validIdent (s : String) : Bool :=
  s != "" && s.data.all allowedIdentChar

/-- The boolean metric type: a typed wrapper around its `CommonMetricData`. -/
structure BooleanMetric where
  meta : CommonMetricData
deriving DecidableEq, Repr

/-- The string metric type: a typed wrapper around its `CommonMetricData`. -/
structure StringMetric where
  meta : CommonMetricData
deriving DecidableEq, Repr

/-- The counter metric type: a typed wrapper around its `CommonMetricData`. -/
structure CounterMetric where
  meta : CommonMetricData
deriving DecidableEq, Repr

/-- Modelled from the spec: the Glean Instance — single process-wide owner of
the Storage Engine and the upload-enabled flag — together with the data the
Ping Maker needs (registered ping names, ping lifetimes, per-ping sequence
numbers) (§3, §4.3, §4.4). -/
structure GleanState where
  initialized : Bool
  uploadEnabled : Bool
  dataDir : Option String
  registeredPings : List String
  persistentPings : List String
  storage : List StorageRecord
  seqNos : List (String × Nat)
deriving DecidableEq, Repr

/-- The state of the process before any call: Uninitialized, upload enabled. -/
def initialState : GleanState :=
  ⟨false, true, none, [], [], [], []⟩

/-- Modelled from the spec: `initialize(data_dir)` binds the Storage Engine to
the directory, failing with `ErrorKind::StorageUnavailable` if it cannot
create/open it (§4.3, §6).  `dirOk` abstracts whether the file system lets the
directory be created or opened.  A second call on an Initialized instance is a
no-op: the Uninitialized → Initialized transition occurs exactly once. -/
def gleanInit (dirOk : Bool) (dataDir : String) (s : GleanState) :
    Except ErrorKind GleanState :=
  if s.initialized then Except.ok s
  else if dirOk then
    Except.ok { s with initialized := true, dataDir := some dataDir }
  else Except.error ErrorKind.storageUnavailable

/-- `is_initialized()`: a pure read of current state (§4.3). -/
def isInitialized (s : GleanState) : Bool :=
  s.initialized

/-- `is_upload_enabled()`: a pure read of the upload-enabled flag (§4.3). -/
def isUploadEnabled (s : GleanState) : Bool :=
  s.uploadEnabled

/-- Modelled from the spec: `set_upload_enabled(bool)` — toggling to disabled
additionally triggers an internal clear of currently stored non-essential
metrics (§4.3).  This model documents the decision the spec asks for: the
clear is synchronous, and every stored metric is non-essential/deletable. -/
def setUploadEnabled (flag : Bool) (s : GleanState) : GleanState :=
  if flag then { s with uploadEnabled := true }
  else { s with uploadEnabled := false, storage := [] }

/-- Modelled from the spec: registering the ping names a new metric feeds, so
that `UnknownPing` can mean "never registered by any metric" (§4.4). -/
def registerPings (pings : List String) (s : GleanState) : GleanState :=
  { s with registeredPings := s.registeredPings ++
      pings.filter fun p => !(s.registeredPings.contains p) }

/-- Modelled from the spec: metric creation validates the identity, failing
with `ErrorKind::InvalidMetricIdentity` when category or name is empty or has
disallowed characters, and registers the metric's ping names (§4.1, §4.4). -/
def newCounterMetric (d : CommonMetricData) (s : GleanState) :
    Except ErrorKind (CounterMetric × GleanState) :=
  if validIdent d.category && validIdent d.name then
    Except.ok (⟨d⟩, registerPings d.sendInPings s)
  else Except.error ErrorKind.invalidMetricIdentity

/-- Modelled from the spec: boolean metric creation (§4.1, §4.4). -/
def newBooleanMetric (d : CommonMetricData) (s : GleanState) :
    Except ErrorKind (BooleanMetric × GleanState) :=
  if validIdent d.category && validIdent d.name then
    Except.ok (⟨d⟩, registerPings d.sendInPings s)
  else Except.error ErrorKind.invalidMetricIdentity

/-- Modelled from the spec: string metric creation (§4.1, §4.4). -/
def newStringMetric (d : CommonMetricData) (s : GleanState) :
    Except ErrorKind (StringMetric × GleanState) :=
  if validIdent d.category && validIdent d.name then
    Except.ok (⟨d⟩, registerPings d.sendInPings s)
  else Except.error ErrorKind.invalidMetricIdentity

/-- Write one value-update through the Storage Engine for every ping name in
`pings`, at the metric's (category, name) (§4.1 side effect). -/
def writeThrough (pings : List String) (category name : String)
    (update : Option MetricValue → MetricValue) (st : List StorageRecord) :
    List StorageRecord :=
  pings.foldl (fun acc p => storageWrite p category name update acc) st

/-- The update a counter `add(amount)` applies at one key: saturating add to
`counterMax` (§4.1). -/
def counterAddUpdate (amount : Nat) (old : Option MetricValue) : MetricValue :=
  MetricValue.counter (min (counterValue old + amount) counterMax)

/-- Modelled from the spec: Counter `add(unsigned amount)` — fails with
`NotInitialized` while Uninitialized (§4.3); is a documented no-op while
upload is disabled (§4.3 privacy contract); otherwise writes a saturating add
through for every ping in `send_in_pings` (§4.1). -/
def counterAdd (m : CounterMetric) (amount : Nat) (s : GleanState) :
    Except ErrorKind GleanState :=
  if !s.initialized then Except.error ErrorKind.notInitialized
  else if !s.uploadEnabled then Except.ok s
  else
    let st := writeThrough m.meta.sendInPings m.meta.category m.meta.name
      (counterAddUpdate amount) s.storage
    Except.ok { s with storage := st }

/-- Modelled from the spec: Boolean `set(bool)` — last-write-wins overwrite
(§4.1), gated like every mutation by the Initialized state and the
upload-enabled flag (§4.3). -/
def booleanSet (m : BooleanMetric) (b : Bool) (s : GleanState) :
    Except ErrorKind GleanState :=
  if !s.initialized then Except.error ErrorKind.notInitialized
  else if !s.uploadEnabled then Except.ok s
  else
    let st := writeThrough m.meta.sendInPings m.meta.category m.meta.name
      (fun _ => MetricValue.boolean b) s.storage
    Except.ok { s with storage := st }

/-- Modelled from the spec: String `set(text)` — overwrite, clamping the text
to `maxStringLength` rather than failing (§4.1), gated like every mutation by
the Initialized state and the upload-enabled flag (§4.3). -/
def stringSet (m : StringMetric) (t : String) (s : GleanState) :
    Except ErrorKind GleanState :=
  if !s.initialized then Except.error ErrorKind.notInitialized
  else if !s.uploadEnabled then Except.ok s
  else
    let st := writeThrough m.meta.sendInPings m.meta.category m.meta.name
      (fun _ => MetricValue.text (String.mk (t.data.take maxStringLength)))
      s.storage
    Except.ok { s with storage := st }

/-- One character of a payload field, escaped so that a raw newline only ever
ends a field: backslash and newline are written as two-character escapes. -/
def escChar (c : Char) : List Char :=
  if c == '\\' then ['\\', '\\']
  else if c == '\n' then ['\\', 'n']
  else [c]

/-- A whole payload field, escaped. -/
def escField (f : List Char) : List Char :=
  f.flatMap escChar

/-- An escaped field followed by its terminating newline. -/
def encField (f : List Char) : List Char :=
  escField f ++ ['\n']

/-- The character an escape pair `\\e` stands for. -/
def unescChar (e : Char) : Char :=
  if e == 'n' then '\n' else e

/-- Read one field of a payload: characters up to the first raw newline,
undoing the escapes.  Returns the field and the remaining characters. -/
def parseField : List Char → Option (List Char × List Char)
  | [] => none
  | c :: rest =>
    if c == '\n' then some ([], rest)
    else if c == '\\' then
      match rest with
      | [] => none
      | e :: rest2 =>
        (parseField rest2).map fun p => (unescChar e :: p.1, p.2)
    else
      (parseField rest).map fun p => (c :: p.1, p.2)

/-- The decimal digit characters of `n`, least significant first; `fuel`
bounds the recursion (callers pass `fuel = n`). -/
def natDigits (fuel n : Nat) : List Char :=
  match fuel with
  | 0 => []
  | fuel' + 1 =>
    if n == 0 then []
    else Char.ofNat (48 + n % 10) :: natDigits fuel' (n / 10)

/-- The decimal rendering of a counter or sequence number inside a payload
(empty for 0; digits least significant first). -/
def encodeNat (n : Nat) : List Char :=
  natDigits n n

/-- The number a list of decimal digit characters (least significant first)
stands for. -/
def decodeNat (l : List Char) : Nat :=
  l.foldr (fun c acc => (c.toNat - 48) + 10 * acc) 0

/-- The characters of one metric value inside a payload: a variant tag
followed by the value's rendering. -/
def encodeValue : MetricValue → List Char
  | MetricValue.boolean b => if b then ['b', '1'] else ['b', '0']
  | MetricValue.text t => 's' :: t.data
  | MetricValue.counter c => 'c' :: encodeNat c

/-- Read back one metric value from its payload field. -/
def decodeValue : List Char → Option MetricValue
  | [] => none
  | tag :: rest =>
    if tag == 'b' then
      if rest == ['1'] then some (MetricValue.boolean true)
      else if rest == ['0'] then some (MetricValue.boolean false)
      else none
    else if tag == 's' then some (MetricValue.text (String.mk rest))
    else if tag == 'c' then some (MetricValue.counter (decodeNat rest))
    else none

/-- The payload characters of a snapshot: three fields per record —
category, name, encoded value. -/
def encodeEntries (snap : List (String × String × MetricValue)) : List Char :=
  snap.flatMap fun e =>
    encField e.1.data ++ encField e.2.1.data ++ encField (encodeValue e.2.2)

/-- Read back the records of a payload: repeatedly read three fields and
decode the third as a value.  `fuel` bounds the recursion (callers pass the
length of the input). -/
def parseEntries (fuel : Nat) (l : List Char) :
    Option (List (String × String × MetricValue)) :=
  match fuel with
  | 0 => if l.isEmpty then some [] else none
  | fuel' + 1 =>
    match l with
    | [] => some []
    | _ =>
      match parseField l with
      | none => none
      | some (cat, l1) =>
        match parseField l1 with
        | none => none
        | some (nm, l2) =>
          match parseField l2 with
          | none => none
          | some (vf, l3) =>
            match decodeValue vf with
            | none => none
            | some v =>
              match parseEntries fuel' l3 with
              | none => none
              | some rest => some ((String.mk cat, String.mk nm, v) :: rest)

/-- Modelled from the spec: the Ping Maker's serialization — a structured
document holding the ping's metadata (its sequence number) and then, per
stored record, the category, name and value (§4.4).  The concrete format is
an implementer's choice; this model uses newline-terminated escaped fields. -/
def renderPayload (seq : Nat) (snap : List (String × String × MetricValue)) :
    String :=
  String.mk (encField (encodeNat seq) ++ encodeEntries snap)

/-- Parse a serialized payload back into its sequence number and its
(category, name, value) records. -/
def parsePayload (p : String) :
    Option (Nat × List (String × String × MetricValue)) :=
  match parseField p.data with
  | none => none
  | some (seqField, rest) =>
    match parseEntries rest.length rest with
    | none => none
    | some entries => some (decodeNat seqField, entries)

/-- The (category.name, value) pairs recoverable by parsing a serialized
payload (`none` when the payload does not parse). -/
def recoverablePairs (p : String) : Option (List (String × MetricValue)) :=
  (parsePayload p).map fun r =>
    r.2.map fun e => (e.1 ++ "." ++ e.2.1, e.2.2)

/-- The (category.name, value) pairs of a snapshot. -/
def snapshotPairs (snap : List (String × String × MetricValue)) :
    List (String × MetricValue) :=
  snap.map fun e => (e.1 ++ "." ++ e.2.1, e.2.2)

/-- The next sequence number for a ping (0 when it was never collected). -/
def seqNoOf (ping : String) (seqNos : List (String × Nat)) : Nat :=
  match seqNos.find? fun e => e.1 == ping with
  | some e => e.2
  | none => 0

/-- Record that a ping's sequence number was consumed. -/
def bumpSeqNo (ping : String) : List (String × Nat) → List (String × Nat)
  | [] => [(ping, 1)]
  | e :: rest =>
    if e.1 == ping then (e.1, e.2 + 1) :: rest
    else e :: bumpSeqNo ping rest

/-- Modelled from the spec: `collect(ping_name)` — fails with
`NotInitialized` while Uninitialized (§4.3) and with `UnknownPing` when the
ping name was never registered by any metric (§4.4); otherwise takes a
snapshot, serializes it with the ping's metadata, bumps the sequence number,
and clears the ping's storage when its lifetime is non-persistent (§4.4). -/
def collect (ping : String) (s : GleanState) :
    Except ErrorKind (String × GleanState) :=
  if !s.initialized then Except.error ErrorKind.notInitialized
  else if !(s.registeredPings.contains ping) then
    Except.error ErrorKind.unknownPing
  else
    let snap := snapshot ping s.storage
    let payload := renderPayload (seqNoOf ping s.seqNos) snap
    let st := if s.persistentPings.contains ping then s.storage
              else storageClear ping s.storage
    Except.ok (payload, { s with storage := st, seqNos := bumpSeqNo ping s.seqNos })

/-- The metric-mutation and ping-collection operations of the core, as one
type, to quantify over "any metric-mutation or ping-collection operation"
(§4.3). -/
inductive GleanOp where
  | counterAddOp (m : CounterMetric) (amount : Nat)
  | booleanSetOp (m : BooleanMetric) (b : Bool)
  | stringSetOp (m : StringMetric) (t : String)
  | collectOp (ping : String)
deriving DecidableEq, Repr

/-- Whether an operation is a metric mutation (rather than a collection). -/
def GleanOp.isMutation : GleanOp → Bool
  | GleanOp.counterAddOp _ _ => true
  | GleanOp.booleanSetOp _ _ => true
  | GleanOp.stringSetOp _ _ => true
  | GleanOp.collectOp _ => false

/-- Run one operation for its state effect. -/
def runOp (op : GleanOp) (s : GleanState) : Except ErrorKind GleanState :=
  match op with
  | GleanOp.counterAddOp m amount => counterAdd m amount s
  | GleanOp.booleanSetOp m b => booleanSet m b s
  | GleanOp.stringSetOp m t => stringSet m t s
  | GleanOp.collectOp ping => (collect ping s).map fun r => r.2

/-- The state after one operation: a failed operation leaves the state with
the caller unchanged. -/
def applyOp (op : GleanOp) (s : GleanState) : GleanState :=
  match runOp op s with
  | Except.ok s2 => s2
  | Except.error _ => s

/-- Fold a list of counter `add` amounts over the state, dropping errors
(used to speak about N calls applied in some order). -/
def applyAdds (m : CounterMetric) (amounts : List Nat) (s : GleanState) :
    GleanState :=
  amounts.foldl (fun acc a => applyOp (GleanOp.counterAddOp m a) acc) s

/-- `glean_initialize` from `src/glean-core/ffi/src/lib.rs`: converts the
directory string, calls the core's initialization, and logs — it has no
`ExternError` out-parameter and returns void, so the core's outcome is
dropped.  The FFI return value visible to the foreign caller is modelled
explicitly (`Unit`), together with the log line the shim emits. -/
def glean_init_ffi (dirOk : Bool) (dataDir : String) (s : GleanState) :
    GleanState × Unit × List String :=
  match gleanInit dirOk dataDir s with
  | Except.ok s2 => (s2, (), ["Glean.rs initialized"])
  | Except.error _ => (s, (), ["Glean.rs initialized"])

/-- `glean_is_initialized` from the FFI: `u8` rendering of the flag. -/
def glean_is_initialized_ffi (s : GleanState) : Nat :=
  if s.initialized then 1 else 0

/-- `glean_is_upload_enabled` from the FFI: `u8` rendering of the flag. -/
def glean_is_upload_enabled_ffi (s : GleanState) : Nat :=
  if s.uploadEnabled then 1 else 0

/-- `glean_set_upload_enabled(flag: u8)` from the FFI: `let flag = flag != 0;`
then the core's `set_upload_enabled(flag)`. -/
def glean_set_upload_enabled_ffi (flag : Nat) (s : GleanState) : GleanState :=
  setUploadEnabled (flag != 0) s

/-- The `CommonMetricData` every FFI metric constructor builds: the given
name and category, `send_in_pings: vec!["core"]`, the rest defaulted
(`..Default::default()`). -/
def ffiMetricData (name category : String) : CommonMetricData :=
  ⟨name, category, ["core"], false⟩

/-- `glean_new_boolean_metric(name, category, err)` from the FFI. -/
def glean_new_boolean_metric_ffi (name category : String) (s : GleanState) :
    Except ErrorKind (BooleanMetric × GleanState) :=
  newBooleanMetric (ffiMetricData name category) s

/-- `glean_new_string_metric(name, category, err)` from the FFI. -/
def glean_new_string_metric_ffi (name category : String) (s : GleanState) :
    Except ErrorKind (StringMetric × GleanState) :=
  newStringMetric (ffiMetricData name category) s

/-- `glean_new_counter_metric(name, category, err)` from the FFI. -/
def glean_new_counter_metric_ffi (name category : String) (s : GleanState) :
    Except ErrorKind (CounterMetric × GleanState) :=
  newCounterMetric (ffiMetricData name category) s

/-- `glean_counter_add(metric_id, amount, error)` from the FFI: looks the
metric up and calls the core's `add` (the handle-map indirection is the
metric itself here). -/
def glean_counter_add_ffi (m : CounterMetric) (amount : Nat) (s : GleanState) :
    Except ErrorKind GleanState :=
  counterAdd m amount s

/-- `glean_ping_collect(ping_name, error)` from the FFI: the Ping Maker's
`collect_string`. -/
def glean_ping_collect_ffi (ping : String) (s : GleanState) :
    Except ErrorKind (String × GleanState) :=
  collect ping s


/-- Well-formedness of one stored record: counter values stay within the
accumulator's capacity (every write of the Metric Type Layer maintains it). -/
def recordWF (r : StorageRecord) : Bool :=
  match r.value with
  | MetricValue.counter cv => decide (cv ≤ counterMax)
  | _ => true

/-- Well-formedness of the store: every counter record is within capacity. -/
def storageWF (st : List StorageRecord) : Bool :=
  st.all recordWF

/-- The state a successful counter `add` produces: the saturating add written
through for every ping in the metric's `send_in_pings`. -/
def counterAddState (m : CounterMetric) (a : Nat) (s : GleanState) : GleanState :=
  let st := writeThrough m.meta.sendInPings m.meta.category m.meta.name
    (counterAddUpdate a) s.storage
  { s with storage := st }

/-- The state of the concrete scenario after `glean_initialize("/data")`. -/
def demoStart : GleanState :=
  (glean_init_ffi true "/data" initialState).1

/-- The scenario's counter metric: category "app", name "launches", ping list
["metrics"]. -/
def appLaunches : CounterMetric :=
  ⟨⟨"launches", "app", ["metrics"], false⟩⟩

/-- The scenario state after creating `appLaunches` (its ping registered). -/
def demoReady : GleanState :=
  registerPings ["metrics"] demoStart


/-- The payload a successful `collect` serializes: the ping's sequence number
and the snapshot of its records. -/
def collectPayload (ping : String) (s : GleanState) : String :=
  renderPayload (seqNoOf ping s.seqNos) (snapshot ping s.storage)

/-- The state a successful `collect` leaves: sequence number bumped, storage
cleared when the ping's lifetime is non-persistent. -/
def collectState (ping : String) (s : GleanState) : GleanState :=
  let st := if s.persistentPings.contains ping then s.storage
            else storageClear ping s.storage
  { s with storage := st, seqNos := bumpSeqNo ping s.seqNos }

/-! ### Lemmas: field-level round trip of the payload encoding -/


theorem parseField_escField (f : List Char) (rest : List Char) :
    parseField (escField f ++ '\n' :: rest) = some (f, rest) := by
  induction f with
  | nil =>
    simp [escField, parseField.eq_def]
  | cons c f ih =>
    have hesc : escField (c :: f) ++ '\n' :: rest =
        escChar c ++ (escField f ++ '\n' :: rest) := by
      simp [escField, List.flatMap_cons, List.append_assoc]
    rw [hesc]
    by_cases hb : c = '\\'
    · subst hb
      rw [show escChar '\\' = ['\\', '\\'] from rfl]
      simp only [List.cons_append, List.nil_append]
      rw [parseField.eq_def]
      simp [ih, unescChar]
    · by_cases hn : c = '\n'
      · subst hn
        rw [show escChar '\n' = ['\\', 'n'] from rfl]
        simp only [List.cons_append, List.nil_append]
        rw [parseField.eq_def]
        simp [ih, unescChar]
      · rw [show escChar c = [c] by simp [escChar, hb, hn]]
        simp only [List.cons_append, List.nil_append]
        rw [parseField.eq_def]
        simp [ih, hb, hn]

theorem parseField_encField (f : List Char) (rest : List Char) :
    parseField (encField f ++ rest) = some (f, rest) := by
  have h : encField f ++ rest = escField f ++ '\n' :: rest := by
    simp [encField]
  rw [h, parseField_escField]

theorem encField_length_pos (f : List Char) : 0 < (encField f).length := by
  simp [encField]

theorem decodeNat_natDigits (fuel : Nat) :
    ∀ n : Nat, n ≤ fuel → decodeNat (natDigits fuel n) = n := by
  induction fuel with
  | zero =>
    intro n hn
    interval_cases n
    simp [natDigits, decodeNat]
  | succ fuel ih =>
    intro n hn
    by_cases h0 : n = 0
    · subst h0; simp [natDigits, decodeNat]
    · have hdiv : n / 10 < n := Nat.div_lt_self (Nat.pos_of_ne_zero h0) (by omega)
      have hrec := ih (n / 10) (by omega)
      have hdigit : (Char.ofNat (48 + n % 10)).toNat = 48 + n % 10 := by
        have hm : n % 10 < 10 := Nat.mod_lt _ (by omega)
        set k := n % 10 with hk
        interval_cases k <;> decide
      simp only [decodeNat] at hrec ⊢
      have hb : (n == 0) = false := by
        simp [h0]
      simp only [natDigits, hb, Bool.false_eq_true, if_false, List.foldr_cons]
      rw [hrec, hdigit]
      omega

theorem decodeNat_encodeNat (n : Nat) : decodeNat (encodeNat n) = n :=
  decodeNat_natDigits n n (Nat.le_refl n)

theorem decodeValue_encodeValue (v : MetricValue) :
    decodeValue (encodeValue v) = some v := by
  cases v with
  | boolean b => cases b <;> decide
  | text t => simp [encodeValue, decodeValue]
  | counter c => simp [encodeValue, decodeValue, decodeNat_encodeNat]

theorem parseEntries_nil (fuel : Nat) : parseEntries fuel [] = some [] := by
  cases fuel <;> simp [parseEntries]

theorem parseEntries_encodeEntries
    (snap : List (String × String × MetricValue)) :
    ∀ fuel : Nat, (encodeEntries snap).length ≤ fuel →
    parseEntries fuel (encodeEntries snap) = some snap := by
  induction snap with
  | nil => intro fuel _; simp [encodeEntries, parseEntries_nil]
  | cons e snap ih =>
    intro fuel hlen
    have henc : encodeEntries (e :: snap) =
        encField e.1.data ++ (encField e.2.1.data ++
          (encField (encodeValue e.2.2) ++ encodeEntries snap)) := by
      simp [encodeEntries, List.flatMap_cons, List.append_assoc]
    have hlenEq : (encodeEntries (e :: snap)).length =
        (encField e.1.data).length + ((encField e.2.1.data).length +
          ((encField (encodeValue e.2.2)).length +
            (encodeEntries snap).length)) := by
      rw [henc]
      simp [List.length_append]
    have h1 := encField_length_pos e.1.data
    have h2 := encField_length_pos e.2.1.data
    have h3 := encField_length_pos (encodeValue e.2.2)
    cases fuel with
    | zero => exfalso; omega
    | succ fuel =>
      have hfst := parseField_encField e.1.data
        (encField e.2.1.data ++ (encField (encodeValue e.2.2) ++ encodeEntries snap))
      have hsnd := parseField_encField e.2.1.data
        (encField (encodeValue e.2.2) ++ encodeEntries snap)
      have hthd := parseField_encField (encodeValue e.2.2) (encodeEntries snap)
      have hrest := ih fuel (by omega)
      cases hl : encField e.1.data ++ (encField e.2.1.data ++
          (encField (encodeValue e.2.2) ++ encodeEntries snap)) with
      | nil =>
        exfalso
        have h0 : encField e.1.data = [] := (List.append_eq_nil.mp hl).1
        rw [h0] at h1
        simp at h1
      | cons x xs =>
        rw [henc, hl]
        rw [hl] at hfst
        simp only [parseEntries, hfst, hsnd, hthd, decodeValue_encodeValue, hrest]

theorem parsePayload_renderPayload (seq : Nat)
    (snap : List (String × String × MetricValue)) :
    parsePayload (renderPayload seq snap) = some (seq, snap) := by
  have hdata : (renderPayload seq snap).data =
      encField (encodeNat seq) ++ encodeEntries snap := rfl
  simp only [parsePayload, hdata, parseField_encField, decodeNat_encodeNat,
    parseEntries_encodeEntries snap _ (Nat.le_refl _)]

theorem recoverablePairs_renderPayload (seq : Nat)
    (snap : List (String × String × MetricValue)) :
    recoverablePairs (renderPayload seq snap) = some (snapshotPairs snap) := by
  simp [recoverablePairs, parsePayload_renderPayload, snapshotPairs]


/-! ### Lemmas: the Storage Engine under counter adds -/

theorem writeThrough_single (p category name : String)
    (u : Option MetricValue → MetricValue) (st : List StorageRecord) :
    writeThrough [p] category name u st = storageWrite p category name u st := by
  simp [writeThrough]

theorem keyMatches_self (p c n : String) (v : MetricValue) :
    keyMatches p c n ⟨p, c, n, v⟩ = true := by
  simp [keyMatches]

theorem lookupCounter_storageWrite_self (p c n : String) (a : Nat)
    (st : List StorageRecord) :
    lookupCounter p c n (storageWrite p c n (counterAddUpdate a) st) =
      min (lookupCounter p c n st + a) counterMax := by
  induction st with
  | nil =>
    simp [storageWrite, lookupCounter, keyMatches, counterAddUpdate,
      counterValue]
  | cons r rest ih =>
    by_cases hk : keyMatches p c n r = true
    · simp only [storageWrite, if_pos hk]
      simp [lookupCounter, List.find?_cons_of_pos, hk, keyMatches_self,
        counterAddUpdate, counterValue]
    · simp only [storageWrite, if_neg hk]
      have hkb : keyMatches p c n r = false := by
        revert hk; cases keyMatches p c n r <;> simp
      simp only [lookupCounter] at ih ⊢
      rw [List.find?_cons_of_neg _ (by simp [hkb]),
        List.find?_cons_of_neg _ (by simp [hkb])]
      exact ih

theorem keyMatches_eq (p c n : String) (r : StorageRecord)
    (h : keyMatches p c n r = true) :
    r.ping = p ∧ r.category = c ∧ r.name = n := by
  simp [keyMatches] at h
  exact ⟨h.1.1, h.1.2, h.2⟩

theorem keyMatches_other (q c2 n2 p c n : String) (v : MetricValue)
    (h : ¬(q = p ∧ c2 = c ∧ n2 = n)) :
    keyMatches q c2 n2 ⟨p, c, n, v⟩ = false := by
  simp only [keyMatches]
  by_cases h1 : p = q
  · by_cases h2 : c = c2
    · by_cases h3 : n = n2
      · exact absurd ⟨h1.symm, h2.symm, h3.symm⟩ h
      · simp [h3]
    · simp [h2]
  · simp [h1]

theorem lookupCounter_storageWrite_other (q c2 n2 p c n : String)
    (u : Option MetricValue → MetricValue) (st : List StorageRecord)
    (h : ¬(q = p ∧ c2 = c ∧ n2 = n)) :
    lookupCounter q c2 n2 (storageWrite p c n u st) =
      lookupCounter q c2 n2 st := by
  induction st with
  | nil =>
    simp only [storageWrite, lookupCounter]
    rw [List.find?_cons_of_neg _ (by simp [keyMatches_other q c2 n2 p c n (u none) h])]
  | cons r rest ih =>
    by_cases hk : keyMatches p c n r = true
    · obtain ⟨hp, hc, hn⟩ := keyMatches_eq p c n r hk
      have h1 : keyMatches q c2 n2 ⟨p, c, n, u (some r.value)⟩ = false :=
        keyMatches_other q c2 n2 p c n _ h
      have h2 : keyMatches q c2 n2 r = false := by
        rw [show r = ⟨p, c, n, r.value⟩ from by cases r; simp_all]
        exact keyMatches_other q c2 n2 p c n r.value h
      simp only [storageWrite, if_pos hk, lookupCounter]
      rw [List.find?_cons_of_neg _ (by simp [h1]),
        List.find?_cons_of_neg _ (by simp [h2])]
    · simp only [storageWrite, if_neg hk]
      by_cases hq : keyMatches q c2 n2 r = true
      · simp only [lookupCounter]
        rw [List.find?_cons_of_pos _ hq, List.find?_cons_of_pos _ hq]
      · simp only [lookupCounter] at ih ⊢
        rw [List.find?_cons_of_neg _ hq, List.find?_cons_of_neg _ hq]
        exact ih

theorem snapshot_cons (q : String) (r : StorageRecord)
    (st : List StorageRecord) :
    snapshot q (r :: st) =
      (if r.ping == q then [(r.category, r.name, r.value)] else []) ++
        snapshot q st := by
  simp only [snapshot, List.filter_cons]
  cases hrq : r.ping == q <;> simp

theorem snapshot_storageWrite_other (q p c n : String)
    (u : Option MetricValue → MetricValue) (st : List StorageRecord)
    (h : q ≠ p) :
    snapshot q (storageWrite p c n u st) = snapshot q st := by
  have hpq : (p == q) = false := by
    simp
    exact Ne.symm h
  induction st with
  | nil =>
    rw [show storageWrite p c n u [] = [⟨p, c, n, u none⟩] from rfl,
      snapshot_cons]
    simp [hpq]
  | cons r rest ih =>
    by_cases hk : keyMatches p c n r = true
    · obtain ⟨hp, hc, hn⟩ := keyMatches_eq p c n r hk
      simp only [storageWrite, if_pos hk]
      rw [snapshot_cons, snapshot_cons]
      simp [hp, hpq]
    · simp only [storageWrite, if_neg hk]
      rw [snapshot_cons, snapshot_cons, ih]

theorem storageWF_cons (r : StorageRecord) (st : List StorageRecord) :
    storageWF (r :: st) =
      (recordWF r && storageWF st) := by
  simp [storageWF, List.all_cons]

theorem lookupCounter_le (p c n : String) (st : List StorageRecord)
    (h : storageWF st = true) :
    lookupCounter p c n st ≤ counterMax := by
  simp only [lookupCounter]
  cases hf : st.find? (keyMatches p c n) with
  | none => simp [counterValue]
  | some r =>
    have hmem := List.mem_of_find?_eq_some hf
    have hr : recordWF r = true := by
      have := (List.all_eq_true.mp h) r hmem
      exact this
    cases hv : r.value with
    | counter cv =>
      show counterValue (some r.value) ≤ counterMax
      rw [hv]
      simp only [counterValue]
      simp only [recordWF, hv] at hr
      exact of_decide_eq_true hr
    | boolean b =>
      show counterValue (some r.value) ≤ counterMax
      rw [hv]
      simp [counterValue]
    | text t =>
      show counterValue (some r.value) ≤ counterMax
      rw [hv]
      simp [counterValue]

theorem recordWF_update (p c n : String) (a : Nat) (v : Option MetricValue) :
    recordWF ⟨p, c, n, counterAddUpdate a v⟩ = true := by
  simp [recordWF, counterAddUpdate]

theorem storageWF_write (p c n : String) (a : Nat) (st : List StorageRecord)
    (h : storageWF st = true) :
    storageWF (storageWrite p c n (counterAddUpdate a) st) = true := by
  induction st with
  | nil =>
    simp only [storageWrite]
    rw [storageWF_cons, recordWF_update]
    simp [storageWF]
  | cons r rest ih =>
    rw [storageWF_cons, Bool.and_eq_true] at h
    obtain ⟨hr, hrest⟩ := h
    by_cases hk : keyMatches p c n r = true
    · simp only [storageWrite, if_pos hk]
      rw [storageWF_cons, recordWF_update, hrest]
      rfl
    · simp only [storageWrite, if_neg hk]
      rw [storageWF_cons, hr, ih hrest]
      rfl

theorem counterAdd_ok (m : CounterMetric) (a : Nat) (s : GleanState)
    (hi : s.initialized = true) (hu : s.uploadEnabled = true) :
    counterAdd m a s = Except.ok (counterAddState m a s) := by
  simp [counterAdd, counterAddState, hi, hu]

theorem applyOp_counterAdd (m : CounterMetric) (a : Nat) (s : GleanState)
    (hi : s.initialized = true) (hu : s.uploadEnabled = true) :
    applyOp (GleanOp.counterAddOp m a) s = counterAddState m a s := by
  simp [applyOp, runOp, counterAdd_ok m a s hi hu]

theorem applyAdds_lookup (m : CounterMetric) (p : String)
    (hm : m.meta.sendInPings = [p]) :
    ∀ (l : List Nat) (s : GleanState), s.initialized = true →
      s.uploadEnabled = true →
      lookupCounter p m.meta.category m.meta.name s.storage ≤ counterMax →
      lookupCounter p m.meta.category m.meta.name (applyAdds m l s).storage =
        min (lookupCounter p m.meta.category m.meta.name s.storage + l.sum)
          counterMax := by
  intro l
  induction l with
  | nil =>
    intro s hi hu hx
    simp only [applyAdds, List.foldl_nil, List.sum_nil, Nat.add_zero]
    rw [Nat.min_eq_left hx]
  | cons a l ih =>
    intro s hi hu hx
    have happ : applyAdds m (a :: l) s =
        applyAdds m l (counterAddState m a s) := by
      simp [applyAdds, List.foldl_cons, applyOp_counterAdd m a s hi hu]
    have hlk : lookupCounter p m.meta.category m.meta.name
        (counterAddState m a s).storage =
        min (lookupCounter p m.meta.category m.meta.name s.storage + a)
          counterMax := by
      simp [counterAddState, hm, writeThrough_single,
        lookupCounter_storageWrite_self]
    have hi2 : (counterAddState m a s).initialized = true := by
      simp [counterAddState, hi]
    have hu2 : (counterAddState m a s).uploadEnabled = true := by
      simp [counterAddState, hu]
    have hx2 : lookupCounter p m.meta.category m.meta.name
        (counterAddState m a s).storage ≤ counterMax := by
      rw [hlk]
      exact Nat.min_le_right _ _
    rw [happ, ih _ hi2 hu2 hx2, hlk, List.sum_cons]
    omega

theorem lookupCounter_writeThrough_zero (pings : List String)
    (cat nm : String) :
    ∀ st : List StorageRecord, storageWF st = true → ∀ q c2 n2 : String,
      lookupCounter q c2 n2
          (writeThrough pings cat nm (counterAddUpdate 0) st) =
        lookupCounter q c2 n2 st := by
  induction pings with
  | nil => intro st _ q c2 n2; rfl
  | cons p pings ih =>
    intro st hwf q c2 n2
    have hwt : writeThrough (p :: pings) cat nm (counterAddUpdate 0) st =
        writeThrough pings cat nm (counterAddUpdate 0)
          (storageWrite p cat nm (counterAddUpdate 0) st) := by
      simp [writeThrough, List.foldl_cons]
    rw [hwt, ih _ (storageWF_write _ _ _ _ _ hwf)]
    by_cases hkey : q = p ∧ c2 = cat ∧ n2 = nm
    · obtain ⟨h1, h2, h3⟩ := hkey
      subst h1
      subst h2
      subst h3
      rw [lookupCounter_storageWrite_self]
      have hle := lookupCounter_le q c2 n2 st hwf
      omega
    · rw [lookupCounter_storageWrite_other _ _ _ _ _ _ _ _ hkey]


theorem runOp_not_initialized (op : GleanOp) (s : GleanState)
    (hi : s.initialized = false) :
    runOp op s = Except.error ErrorKind.notInitialized := by
  cases op <;>
    simp [runOp, counterAdd, booleanSet, stringSet, collect, hi, Except.map]

theorem collect_ok (ping : String) (s : GleanState)
    (hi : s.initialized = true)
    (hreg : s.registeredPings.contains ping = true) :
    collect ping s = Except.ok (collectPayload ping s, collectState ping s) := by
  have hmem : ping ∈ s.registeredPings := by
    simpa using hreg
  simp [collect, collectPayload, collectState, hi, hmem]

theorem snapshot_storageClear (p : String) (st : List StorageRecord) :
    snapshot p (storageClear p st) = [] := by
  induction st with
  | nil => rfl
  | cons r rest ih =>
    simp only [storageClear, List.filter_cons] at ih ⊢
    cases hrp : r.ping != p with
    | false => simp [hrp, ih]
    | true =>
      have hne : (r.ping == p) = false := by
        revert hrp
        simp [bne]
      simp only [hrp, if_pos]
      rw [snapshot_cons]
      simp [hne, ih]


/-! ### The claims -/

/-- C1: Counter `add` is associative and commutative: the same multiset of
`add` calls applied in any order yields the same final stored value; N
`add(1)` calls starting from a fresh value yield a final stored value of N
(within the accumulator's capacity); and in the concrete scenario — a counter
with category "app", name "launches", ping list ["metrics"], three `add(1)`
calls, then `collect("metrics")` — the collected payload reports
`app.launches = 3`. -/
theorem counter_add_order_independent :
    (∀ (m : CounterMetric) (p : String) (s : GleanState) (l1 l2 : List Nat),
      m.meta.sendInPings = [p] → s.initialized = true →
      s.uploadEnabled = true →
      lookupCounter p m.meta.category m.meta.name s.storage ≤ counterMax →
      l1.Perm l2 →
      lookupCounter p m.meta.category m.meta.name (applyAdds m l1 s).storage =
        lookupCounter p m.meta.category m.meta.name (applyAdds m l2 s).storage)
    ∧ (∀ (m : CounterMetric) (p : String) (s : GleanState) (N : Nat),
      m.meta.sendInPings = [p] → s.initialized = true →
      s.uploadEnabled = true →
      lookupCounter p m.meta.category m.meta.name s.storage = 0 →
      N ≤ counterMax →
      lookupCounter p m.meta.category m.meta.name
        (applyAdds m (List.replicate N 1) s).storage = N)
    ∧ newCounterMetric ⟨"launches", "app", ["metrics"], false⟩ demoStart =
        Except.ok (appLaunches, demoReady)
    ∧ (glean_ping_collect_ffi "metrics"
        (applyAdds appLaunches [1, 1, 1] demoReady)).map
        (fun r => recoverablePairs r.1) =
      Except.ok (some [("app.launches", MetricValue.counter 3)]) := by
  refine ⟨?_, ?_, rfl, rfl⟩
  · intro m p s l1 l2 hm hi hu hx hperm
    rw [applyAdds_lookup m p hm l1 s hi hu hx,
      applyAdds_lookup m p hm l2 s hi hu hx, hperm.sum_eq]
  · intro m p s N hm hi hu hz hN
    rw [applyAdds_lookup m p hm _ s hi hu (by rw [hz]; omega), hz]
    simp only [List.sum_replicate, smul_eq_mul, Nat.mul_one, Nat.zero_add]
    omega

/-- Witness for C1: both universally quantified parts applied at concrete
inputs. -/
theorem counter_add_order_independent_witness :
    lookupCounter "metrics" "app" "launches"
        (applyAdds appLaunches [2, 5] demoReady).storage =
      lookupCounter "metrics" "app" "launches"
        (applyAdds appLaunches [5, 2] demoReady).storage ∧
    lookupCounter "metrics" "app" "launches"
        (applyAdds appLaunches (List.replicate 3 1) demoReady).storage = 3 :=
  ⟨counter_add_order_independent.1 appLaunches "metrics" demoReady [2, 5]
      [5, 2] rfl rfl rfl (Nat.zero_le _) (by decide),
    counter_add_order_independent.2.1 appLaunches "metrics" demoReady 3
      rfl rfl rfl rfl (by decide)⟩

/-- C2: collecting a ping name that was never registered by any metric fails
with `ErrorKind::UnknownPing`; in particular `collect("unregistered_ping")`
fails with `UnknownPing`. -/
theorem collect_unknown_ping (s : GleanState) (ping : String)
    (hi : s.initialized = true)
    (hreg : s.registeredPings.contains ping = false) :
    collect ping s = Except.error ErrorKind.unknownPing := by
  have hmem : ping ∉ s.registeredPings := by
    simpa using hreg
  simp [collect, hi, hmem]

/-- Witness for C2: `collect("unregistered_ping")` on the initialized demo
state fails with `UnknownPing`. -/
theorem collect_unknown_ping_witness :
    collect "unregistered_ping" demoStart =
      Except.error ErrorKind.unknownPing :=
  collect_unknown_ping demoStart "unregistered_ping" rfl rfl

/-- C3: the Glean singleton is a two-state machine {Uninitialized,
Initialized}: a first successful `initialize` makes the transition, a second
`initialize` is a no-op (the transition occurs exactly once), every
metric-mutation or ping-collection operation invoked while Uninitialized
fails with `ErrorKind::NotInitialized` and leaves the state (hence storage)
unchanged, and no operation ever changes the initialization state. -/
theorem glean_two_state_machine :
    (∀ (dirOk : Bool) (dir : String) (s : GleanState),
      s.initialized = false → dirOk = true →
      gleanInit dirOk dir s =
        Except.ok { s with initialized := true, dataDir := some dir })
    ∧ (∀ (dirOk : Bool) (dir : String) (s : GleanState),
      s.initialized = true → gleanInit dirOk dir s = Except.ok s)
    ∧ (∀ (op : GleanOp) (s : GleanState), s.initialized = false →
      runOp op s = Except.error ErrorKind.notInitialized ∧ applyOp op s = s)
    ∧ (∀ (op : GleanOp) (s : GleanState),
      (applyOp op s).initialized = s.initialized) := by
  refine ⟨?_, ?_, ?_, ?_⟩
  · intro dirOk dir s hs hok
    simp [gleanInit, hs, hok]
  · intro dirOk dir s hs
    simp [gleanInit, hs]
  · intro op s hs
    have hrun := runOp_not_initialized op s hs
    exact ⟨hrun, by simp [applyOp, hrun]⟩
  · intro op s
    by_cases hi : s.initialized = true
    · by_cases hu : s.uploadEnabled = true
      · cases op with
        | counterAddOp m a =>
          simp [applyOp, runOp, counterAdd, hi, hu]
        | booleanSetOp m b =>
          simp [applyOp, runOp, booleanSet, hi, hu]
        | stringSetOp m t =>
          simp [applyOp, runOp, stringSet, hi, hu]
        | collectOp ping =>
          by_cases hreg : ping ∈ s.registeredPings
          · simp [applyOp, runOp, collect, hi, hreg, Except.map]
          · simp [applyOp, runOp, collect, hi, hreg, Except.map]
      · have hu2 : s.uploadEnabled = false := by
          revert hu
          cases s.uploadEnabled <;> simp
        cases op with
        | counterAddOp m a =>
          simp [applyOp, runOp, counterAdd, hi, hu2]
        | booleanSetOp m b =>
          simp [applyOp, runOp, booleanSet, hi, hu2]
        | stringSetOp m t =>
          simp [applyOp, runOp, stringSet, hi, hu2]
        | collectOp ping =>
          by_cases hreg : ping ∈ s.registeredPings
          · simp [applyOp, runOp, collect, hi, hreg, Except.map]
          · simp [applyOp, runOp, collect, hi, hreg, Except.map]
    · have hi2 : s.initialized = false := by
        revert hi
        cases s.initialized <;> simp
      have hrun := runOp_not_initialized op s hi2
      simp [applyOp, hrun]

/-- Witness for C3: the state-machine facts at concrete inputs — the first
`initialize` transitions, a repeated `initialize` is a no-op, and a collect
before initialization fails with `NotInitialized`. -/
theorem glean_two_state_machine_witness :
    gleanInit true "/data" initialState =
      Except.ok { initialState with initialized := true, dataDir := some "/data" } ∧
    gleanInit false "/other" demoStart = Except.ok demoStart ∧
    runOp (GleanOp.collectOp "metrics") initialState =
      Except.error ErrorKind.notInitialized :=
  ⟨glean_two_state_machine.1 true "/data" initialState rfl rfl,
    glean_two_state_machine.2.1 false "/other" demoStart rfl,
    (glean_two_state_machine.2.2.1 (GleanOp.collectOp "metrics")
      initialState rfl).1⟩

/-- C4: after `set_upload_enabled(false)` every metric mutation is rejected
(`NotInitialized` when still Uninitialized) or a documented no-op leaving the
state unchanged — no data is ever stored while upload is disabled — and
toggling to disabled synchronously clears the stored (non-essential)
metrics. -/
theorem upload_disabled_no_writes :
    (∀ (op : GleanOp) (s : GleanState), op.isMutation = true →
      s.uploadEnabled = false →
      applyOp op s = s ∧
        (runOp op s = Except.ok s ∨
          runOp op s = Except.error ErrorKind.notInitialized))
    ∧ (∀ s : GleanState, (setUploadEnabled false s).storage = [] ∧
        (setUploadEnabled false s).uploadEnabled = false) := by
  constructor
  · intro op s hmut hu
    by_cases hi : s.initialized = true
    · cases op with
      | counterAddOp m a =>
        have hrun : runOp (GleanOp.counterAddOp m a) s = Except.ok s := by
          simp [runOp, counterAdd, hi, hu]
        exact ⟨by simp [applyOp, hrun], Or.inl hrun⟩
      | booleanSetOp m b =>
        have hrun : runOp (GleanOp.booleanSetOp m b) s = Except.ok s := by
          simp [runOp, booleanSet, hi, hu]
        exact ⟨by simp [applyOp, hrun], Or.inl hrun⟩
      | stringSetOp m t =>
        have hrun : runOp (GleanOp.stringSetOp m t) s = Except.ok s := by
          simp [runOp, stringSet, hi, hu]
        exact ⟨by simp [applyOp, hrun], Or.inl hrun⟩
      | collectOp ping =>
        exact absurd hmut (by simp [GleanOp.isMutation])
    · have hi2 : s.initialized = false := by
        revert hi
        cases s.initialized <;> simp
      have hrun := runOp_not_initialized op s hi2
      exact ⟨by simp [applyOp, hrun], Or.inr hrun⟩
  · intro s
    simp [setUploadEnabled]

/-- Witness for C4: a counter add after disabling upload leaves the state
unchanged, and the disable cleared storage. -/
theorem upload_disabled_no_writes_witness :
    applyOp (GleanOp.counterAddOp appLaunches 5)
        (setUploadEnabled false demoReady) =
      setUploadEnabled false demoReady ∧
    (setUploadEnabled false demoReady).storage = [] :=
  ⟨(upload_disabled_no_writes.1 (GleanOp.counterAddOp appLaunches 5)
      (setUploadEnabled false demoReady) rfl rfl).1,
    (upload_disabled_no_writes.2 (setUploadEnabled false demoReady)).1⟩

/-- C5: for a ping with non-persistent lifetime, collecting twice with no
intervening writes yields on the second call a valid payload whose metric
sections are empty (the first collection cleared the ping's storage), and
collecting a ping to which no metric was ever written is not an error and
still yields a valid payload with empty metric sections. -/
theorem collect_twice_second_empty :
    (∀ (s : GleanState) (ping : String), s.initialized = true →
      s.registeredPings.contains ping = true →
      s.persistentPings.contains ping = false →
      (collect ping s).map (fun r => (collect ping r.2).map
        (fun q => recoverablePairs q.1)) =
        Except.ok (Except.ok (some [])))
    ∧ (∀ (s : GleanState) (ping : String), s.initialized = true →
      s.registeredPings.contains ping = true →
      snapshot ping s.storage = [] →
      (collect ping s).map (fun r => recoverablePairs r.1) =
        Except.ok (some [])) := by
  constructor
  · intro s ping hi hreg hper
    rw [collect_ok ping s hi hreg]
    have hi2 : (collectState ping s).initialized = true := by
      simp [collectState, hi]
    have hreg2 : (collectState ping s).registeredPings.contains ping = true := by
      simp [collectState]
      simpa using hreg
    rw [Except.map, collect_ok ping (collectState ping s) hi2 hreg2]
    have hp2 : ping ∉ s.persistentPings := by
      simpa using hper
    have hsnap : snapshot ping (collectState ping s).storage = [] := by
      simp [collectState, hp2, snapshot_storageClear]
    simp [Except.map, collectPayload, hsnap, recoverablePairs_renderPayload,
      snapshotPairs]
  · intro s ping hi hreg hsnap
    rw [collect_ok ping s hi hreg]
    simp [Except.map, collectPayload, hsnap, recoverablePairs_renderPayload,
      snapshotPairs]

/-- Witness for C5: both parts at the concrete demo state (ping "metrics",
non-persistent, nothing written). -/
theorem collect_twice_second_empty_witness :
    (collect "metrics" demoReady).map (fun r => (collect "metrics" r.2).map
      (fun q => recoverablePairs q.1)) = Except.ok (Except.ok (some [])) ∧
    (collect "metrics" demoReady).map (fun r => recoverablePairs r.1) =
      Except.ok (some []) :=
  ⟨collect_twice_second_empty.1 demoReady "metrics" rfl rfl rfl,
    collect_twice_second_empty.2 demoReady "metrics" rfl rfl rfl⟩

/-- C6: round-trip of ping serialization — parsing the payload produced by a
successful `collect` recovers exactly the (category.name, value) pairs of the
snapshot taken immediately before serialization (as lists, hence as sets). -/
theorem collect_round_trip (s : GleanState) (ping : String)
    (hi : s.initialized = true)
    (hreg : s.registeredPings.contains ping = true) :
    (collect ping s).map (fun r => recoverablePairs r.1) =
      Except.ok (some (snapshotPairs (snapshot ping s.storage))) := by
  rw [collect_ok ping s hi hreg]
  simp [Except.map, collectPayload, recoverablePairs_renderPayload]

/-- Witness for C6: round trip at a concrete state holding
`app.launches = 3`. -/
theorem collect_round_trip_witness :
    (collect "metrics" (applyAdds appLaunches [1, 1, 1] demoReady)).map
      (fun r => recoverablePairs r.1) =
      Except.ok (some (snapshotPairs (snapshot "metrics"
        (applyAdds appLaunches [1, 1, 1] demoReady).storage))) :=
  collect_round_trip (applyAdds appLaunches [1, 1, 1] demoReady) "metrics"
    rfl rfl

/-- C7: counter `add(0)` is not an error and leaves every stored accumulator
unchanged, and `add(amount)` saturates: when the stored value plus the amount
reaches the accumulator's capacity, the stored value becomes `counterMax`
rather than wrapping. -/
theorem counter_add_zero_and_saturation :
    (∀ (m : CounterMetric) (s : GleanState), s.initialized = true →
      storageWF s.storage = true →
      (∃ s2, counterAdd m 0 s = Except.ok s2) ∧
      (∀ q c2 n2 : String,
        lookupCounter q c2 n2
            (applyOp (GleanOp.counterAddOp m 0) s).storage =
          lookupCounter q c2 n2 s.storage))
    ∧ (∀ (m : CounterMetric) (p : String) (a : Nat) (s : GleanState),
      m.meta.sendInPings = [p] → s.initialized = true →
      s.uploadEnabled = true →
      counterMax ≤ lookupCounter p m.meta.category m.meta.name s.storage + a →
      lookupCounter p m.meta.category m.meta.name
        (applyOp (GleanOp.counterAddOp m a) s).storage = counterMax) := by
  constructor
  · intro m s hi hwf
    by_cases hu : s.uploadEnabled = true
    · refine ⟨⟨counterAddState m 0 s, counterAdd_ok m 0 s hi hu⟩, ?_⟩
      intro q c2 n2
      rw [applyOp_counterAdd m 0 s hi hu]
      simp only [counterAddState]
      rw [lookupCounter_writeThrough_zero m.meta.sendInPings m.meta.category
        m.meta.name s.storage hwf q c2 n2]
    · have hu2 : s.uploadEnabled = false := by
        revert hu
        cases s.uploadEnabled <;> simp
      have hrun : counterAdd m 0 s = Except.ok s := by
        simp [counterAdd, hi, hu2]
      refine ⟨⟨s, hrun⟩, ?_⟩
      intro q c2 n2
      simp [applyOp, runOp, hrun]
  · intro m p a s hm hi hu hsat
    rw [applyOp_counterAdd m a s hi hu]
    simp only [counterAddState, hm, writeThrough_single]
    rw [lookupCounter_storageWrite_self]
    omega

/-- Witness for C7: `add(0)` leaves `app.launches = 3` unchanged, and adding
`counterMax` to the fresh counter saturates at `counterMax`. -/
theorem counter_add_zero_and_saturation_witness :
    lookupCounter "metrics" "app" "launches"
        (applyOp (GleanOp.counterAddOp appLaunches 0)
          (applyAdds appLaunches [1, 1, 1] demoReady)).storage =
      lookupCounter "metrics" "app" "launches"
        (applyAdds appLaunches [1, 1, 1] demoReady).storage ∧
    lookupCounter "metrics" "app" "launches"
        (applyOp (GleanOp.counterAddOp appLaunches (counterMax + 1))
          demoReady).storage = counterMax :=
  ⟨(counter_add_zero_and_saturation.1 appLaunches
      (applyAdds appLaunches [1, 1, 1] demoReady) rfl rfl).2
      "metrics" "app" "launches",
    counter_add_zero_and_saturation.2 appLaunches "metrics" (counterMax + 1)
      demoReady rfl rfl rfl (by omega)⟩

/-- C8: every metric created through the FFI constructors
(`glean_new_boolean_metric`, `glean_new_string_metric`,
`glean_new_counter_metric`) carries `send_in_pings = ["core"]`, and a
successful mutation of such a metric (the FFI's `glean_counter_add`) writes
through to the Storage Engine for exactly the ping "core": the "core" record
receives the saturating add and every other ping's records are untouched. -/
theorem ffi_metrics_target_core_ping :
    (∀ (name category : String) (s : GleanState) (m : BooleanMetric)
      (s2 : GleanState),
      glean_new_boolean_metric_ffi name category s = Except.ok (m, s2) →
      m.meta.sendInPings = ["core"])
    ∧ (∀ (name category : String) (s : GleanState) (m : StringMetric)
      (s2 : GleanState),
      glean_new_string_metric_ffi name category s = Except.ok (m, s2) →
      m.meta.sendInPings = ["core"])
    ∧ (∀ (name category : String) (s : GleanState) (m : CounterMetric)
      (s2 : GleanState),
      glean_new_counter_metric_ffi name category s = Except.ok (m, s2) →
      m.meta.sendInPings = ["core"])
    ∧ (∀ (m : CounterMetric) (a : Nat) (s : GleanState),
      m.meta.sendInPings = ["core"] → s.initialized = true →
      s.uploadEnabled = true →
      lookupCounter "core" m.meta.category m.meta.name
          (applyOp (GleanOp.counterAddOp m a) s).storage =
        min (lookupCounter "core" m.meta.category m.meta.name s.storage + a)
          counterMax ∧
      (∀ q : String, q ≠ "core" →
        snapshot q (applyOp (GleanOp.counterAddOp m a) s).storage =
          snapshot q s.storage)) := by
  refine ⟨?_, ?_, ?_, ?_⟩
  · intro name category s m s2 h
    simp only [glean_new_boolean_metric_ffi, newBooleanMetric] at h
    split at h
    · injection h with h
      injection h with h1 h2
      rw [← h1]
      rfl
    · exact Except.noConfusion h
  · intro name category s m s2 h
    simp only [glean_new_string_metric_ffi, newStringMetric] at h
    split at h
    · injection h with h
      injection h with h1 h2
      rw [← h1]
      rfl
    · exact Except.noConfusion h
  · intro name category s m s2 h
    simp only [glean_new_counter_metric_ffi, newCounterMetric] at h
    split at h
    · injection h with h
      injection h with h1 h2
      rw [← h1]
      rfl
    · exact Except.noConfusion h
  · intro m a s hm hi hu
    rw [applyOp_counterAdd m a s hi hu]
    constructor
    · simp only [counterAddState, hm, writeThrough_single]
      rw [lookupCounter_storageWrite_self]
    · intro q hq
      simp only [counterAddState, hm, writeThrough_single]
      rw [snapshot_storageWrite_other q "core" m.meta.category m.meta.name
        (counterAddUpdate a) s.storage hq]

/-- Witness for C8: a concrete FFI-created counter carries
`send_in_pings = ["core"]`, and its add writes the "core" record. -/
theorem ffi_metrics_target_core_ping_witness :
    (CounterMetric.mk (ffiMetricData "clicks" "ui")).meta.sendInPings =
      ["core"] ∧
    lookupCounter "core" "ui" "clicks"
        (applyOp (GleanOp.counterAddOp ⟨ffiMetricData "clicks" "ui"⟩ 4)
          demoStart).storage =
      min (lookupCounter "core" "ui" "clicks" demoStart.storage + 4)
        counterMax :=
  ⟨ffi_metrics_target_core_ping.2.2.1 "clicks" "ui" demoStart
      ⟨ffiMetricData "clicks" "ui"⟩ (registerPings ["core"] demoStart) rfl,
    (ffi_metrics_target_core_ping.2.2.2 ⟨ffiMetricData "clicks" "ui"⟩ 4
      demoStart rfl rfl rfl).1⟩

/-- C9 counterexample: the claim also asserts the initialization failure is
communicated to the caller of the initialization entry point, but the FFI
entry point `glean_initialize` returns void, takes no `ExternError`
out-parameter, and logs the same line either way: on an inaccessible data
directory the core fails with `StorageUnavailable`, yet the caller-visible
output of the FFI call is identical to a successful run's, and the state is
left Uninitialized. -/
theorem ffi_init_failure_not_communicated :
    gleanInit false "/data" initialState =
      Except.error ErrorKind.storageUnavailable ∧
    (glean_init_ffi false "/data" initialState).2 =
      (glean_init_ffi true "/data" initialState).2 ∧
    (glean_init_ffi false "/data" initialState).1.initialized = false :=
  ⟨rfl, rfl, rfl⟩

/-- C9 (amended): on an Uninitialized instance the core's `initialize` fails
with `StorageUnavailable` iff the data directory cannot be created or opened;
the failure reaches the core's immediate caller (the FFI shim), but the FFI
entry point `glean_initialize` returns void and does not forward it across
the boundary. -/
theorem init_storage_unavailable_iff (dirOk : Bool) (dir : String)
    (s : GleanState) (hs : s.initialized = false) :
    (gleanInit dirOk dir s = Except.error ErrorKind.storageUnavailable ↔
      dirOk = false) ∧
    (glean_init_ffi dirOk dir s).2.1 = () := by
  constructor
  · cases dirOk <;> simp [gleanInit, hs]
  · rfl

/-- Witness for C9's amended theorem at a concrete failing directory. -/
theorem init_storage_unavailable_iff_witness :
    (gleanInit false "/data" initialState =
        Except.error ErrorKind.storageUnavailable ↔ false = false) ∧
    (glean_init_ffi false "/data" initialState).2.1 = () :=
  init_storage_unavailable_iff false "/data" initialState rfl

/-- C10: `glean_set_upload_enabled` interprets its `u8` argument by
comparison with zero (`let flag = flag != 0`): every nonzero flag enables,
zero disables, and all nonzero flags are indistinguishable at this
interface. -/
theorem ffi_upload_flag_nonzero :
    (∀ (flag : Nat) (s : GleanState), flag ≠ 0 →
      glean_set_upload_enabled_ffi flag s = setUploadEnabled true s)
    ∧ (∀ s : GleanState,
      glean_set_upload_enabled_ffi 0 s = setUploadEnabled false s)
    ∧ (∀ (f1 f2 : Nat) (s : GleanState), f1 ≠ 0 → f2 ≠ 0 →
      glean_set_upload_enabled_ffi f1 s =
        glean_set_upload_enabled_ffi f2 s) := by
  refine ⟨?_, ?_, ?_⟩
  · intro flag s h
    have hb : (flag == 0) = false := beq_eq_false_iff_ne.mpr h
    simp [glean_set_upload_enabled_ffi, bne, hb]
  · intro s
    rfl
  · intro f1 f2 s h1 h2
    have hb1 : (f1 == 0) = false := beq_eq_false_iff_ne.mpr h1
    have hb2 : (f2 == 0) = false := beq_eq_false_iff_ne.mpr h2
    simp [glean_set_upload_enabled_ffi, bne, hb1, hb2]

/-- Witness for C10: flags 7 and 255 both enable, and are
indistinguishable. -/
theorem ffi_upload_flag_nonzero_witness :
    glean_set_upload_enabled_ffi 7 demoReady =
      setUploadEnabled true demoReady ∧
    glean_set_upload_enabled_ffi 7 demoReady =
      glean_set_upload_enabled_ffi 255 demoReady :=
  ⟨ffi_upload_flag_nonzero.1 7 demoReady (by decide),
    ffi_upload_flag_nonzero.2.2 7 255 demoReady (by decide) (by decide)⟩

end GleanSpec
